import Mathlib

/-!
Shallow embedding of the chat-state hook (`src/hooks/useChat.ts`) and the
thinking-block parser (`src/components/Markdown.tsx`) of the ai-sidebar
extension, together with proofs settling the frozen claims about them.

The hook keeps a module-level map from tab id to `{ messages, error }`,
per-render React state (`messages`, `isLoading`, `error`,
`streamingContent`), and a mutable ref holding the current
`AbortController`.  JavaScript is single threaded, so a session is a state
machine driven by serialised events: the `tabId` effect, the synchronous
prefixes of `sendMessage` / `summarizePage` (everything up to the `await`),
stream-chunk callbacks, promise resolution / rejection, and
`clearMessages`.  Async closures capture the render-time values of
`messages`, `error` and `tabId`; those captures are recorded in a pending
request when the request starts.
-/

namespace AiSidebar

/-! ### JavaScript string trimming (`String.prototype.trim`) -/

/-- The JavaScript `WhiteSpace` / `LineTerminator` character set used by
`String.prototype.trim`. -/
def isJsWs (c : Char) : Bool :=
  c.val == 9 || c.val == 10 || c.val == 11 || c.val == 12 || c.val == 13 ||
  c.val == 32 || c.val == 160 || c.val == 0x1680 ||
  (0x2000 ≤ c.val && c.val ≤ 0x200A) ||
  c.val == 0x2028 || c.val == 0x2029 || c.val == 0x202F || c.val == 0x205F ||
  c.val == 0x3000 || c.val == 0xFEFF

/-- JavaScript `s.trim()`: remove leading and trailing whitespace. -/
def jsTrim (s : String) : String :=
  ⟨((s.data.dropWhile isJsWs).reverse.dropWhile isJsWs).reverse⟩

/-! ### `generateId` (useChat.ts lines 14-16)

`` `${Date.now()}-${Math.random().toString(36).slice(2, 9)}` `` —
the decimal rendering of the millisecond timestamp, a dash, and a
base-36 fraction suffix.  The timestamp and the random suffix are
environment inputs of each creation event. -/

/-- The character JavaScript prints for a decimal digit. -/
def digitChar (d : Nat) : Char := Char.ofNat (48 + d)

/-- Decimal digit characters of `n`, most significant first, with
structural fuel so that the kernel can evaluate it (`fuel > n` suffices). -/
def natDecCharsAux : Nat → Nat → List Char
  | 0, _ => []
  | fuel + 1, n =>
    if n < 10 then [digitChar n]
    else natDecCharsAux fuel (n / 10) ++ [digitChar (n % 10)]

/-- Decimal rendering of a natural number, as JavaScript prints it. -/
def natDecChars (n : Nat) : List Char := natDecCharsAux (n + 1) n

/-- `generateId`: decimal timestamp, `'-'`, random base-36 suffix. -/
def generateId (now : Nat) (rand : String) : String :=
  (⟨natDecChars now⟩ : String) ++ "-" ++ rand

/-! ### Data model (useChat.ts lines 21-27) -/

inductive Role
  | user
  | assistant
deriving DecidableEq

/-- `ChatMessage` from `src/types`. -/
structure ChatMessage where
  id : String
  role : Role
  content : String
  createdAt : Nat
deriving DecidableEq

/-- `TabChatState`: the per-tab record `{ messages, error }`. -/
structure TabChatState where
  messages : List ChatMessage
  error : Option String
deriving DecidableEq

/-- The module-level `Map<number, TabChatState>`, as an association list. -/
abbrev TabMap := List (Nat × TabChatState)

/-- `Map.prototype.get`. -/
def mapGet (m : TabMap) (k : Nat) : Option TabChatState :=
  match m with
  | [] => none
  | (k₀, v) :: rest => if k₀ = k then some v else mapGet rest k

/-- `Map.prototype.set`. -/
def mapSet (m : TabMap) (k : Nat) (v : TabChatState) : TabMap :=
  match m with
  | [] => [(k, v)]
  | (k₀, v₀) :: rest => if k₀ = k then (k₀, v) :: rest else (k₀, v₀) :: mapSet rest k v

/-- `getTabState` (useChat.ts lines 42-47): the stored record for the
bound tab, or the empty record for a null tab / missing entry. -/
def getTabState (tabId : Option Nat) (m : TabMap) : TabChatState :=
  match tabId with
  | none => ⟨[], none⟩
  | some t => (mapGet m t).getD ⟨[], none⟩

/-- `saveTabState` (useChat.ts lines 76-80): write the record for the
bound tab; a no-op when the bound tab id is null. -/
def saveTabState (tabId : Option Nat) (m : TabMap) (msgs : List ChatMessage)
    (err : Option String) : TabMap :=
  match tabId with
  | none => m
  | some t => mapSet m t ⟨msgs, err⟩

/-! ### Requests, rejection values, sessions -/

inductive ReqKind
  | send
  | summarize
deriving DecidableEq

/-- A pending provider call: the `AbortController` created for it, the
render-time closure captures (`tabId`, `messages`, `error`), its local
`fullContent` accumulator, and whether its promise has settled. -/
structure PendingReq where
  kind : ReqKind
  tok : Nat
  tabAtCall : Option Nat
  capturedMessages : List ChatMessage
  capturedError : Option String
  fullContent : String
  done : Bool
deriving DecidableEq

/-- A value rejected by the provider promise: a JavaScript `Error` with a
`name` and `message`, or any non-`Error` value. -/
inductive RejectVal
  | jsError (name message : String)
  | nonError
deriving DecidableEq

/-- `err instanceof Error && err.name === 'AbortError'`. -/
def isAbortError : RejectVal → Bool
  | .jsError n _ => n == "AbortError"
  | .nonError => false

/-- The localized fallback used when the rejected value is not an `Error`:
`'AI 响应失败'` in `sendMessage`, `'总结失败'` in `summarizePage`. -/
def fallbackMsg : ReqKind → String
  | .send => "AI 响应失败"
  | .summarize => "总结失败"

/-- `err instanceof Error ? err.message : <fallback>`. -/
def rejectMessage : RejectVal → ReqKind → String
  | .jsError _ m, _ => m
  | .nonError, k => fallbackMsg k

/-- The whole observable state of one hook session: React state, the
`abortControllerRef` (tokens are numbered in creation order; `current`
is the ref, `aborted` the set of aborted tokens), the global tab map,
and every provider call started so far. -/
structure Session where
  tabId : Option Nat
  messages : List ChatMessage
  isLoading : Bool
  error : Option String
  streamingContent : String
  tabStates : TabMap
  current : Option Nat
  nextTok : Nat
  aborted : List Nat
  reqs : List PendingReq
deriving DecidableEq

def initSession : Session :=
  { tabId := none, messages := [], isLoading := false, error := none,
    streamingContent := "", tabStates := [], current := none, nextTok := 0,
    aborted := [], reqs := [] }

/-- `abortControllerRef.current.abort()`: the aborted set after aborting
the current controller (if any). -/
def abortList (s : Session) : List Nat :=
  match s.current with
  | some t => t :: s.aborted
  | none => s.aborted

/-- `abortControllerRef.current?.signal.aborted`: `undefined` (falsy) when
the ref is null, else the current controller's aborted flag. -/
def currentAborted (s : Session) : Bool :=
  match s.current with
  | some t => decide (t ∈ s.aborted)
  | none => false

/-! ### Events and the step function -/

/-- The serialised events that drive a session.  `chunk`, `resolve` and
`reject` name the pending request (by start order) whose stream callback
fires or whose promise settles; `now` / `rand` are the `Date.now()` and
`Math.random()` draws of a creation event. -/
inductive Event
  | setTab (t : Option Nat)
  | send (content : String) (pageContext : Option String) (now : Nat) (rand : String)
  | summarize (pageContent : String) (now : Nat) (rand : String)
  | clear
  | chunk (i : Nat) (c : String)
  | resolve (i : Nat) (respContent : String) (now : Nat) (rand : String)
  | reject (i : Nat) (e : RejectVal)
deriving DecidableEq

/-- One serialised event, translated clause by clause from `useChat.ts`:
the `tabId` effect (lines 58-73), the synchronous prefix of `sendMessage`
(lines 92-116) and of `summarizePage` (lines 172-193), the stream-chunk
callbacks (131-138 / 200-207), the post-`await` completion (142-156 /
211-225), the `catch` blocks (157-168 / 226-237) with their `finally`,
and `clearMessages` (241-253). -/
def step (s : Session) (e : Event) : Session :=
  match e with
  | .setTab t =>
    let st := getTabState t s.tabStates
    { s with
      tabId := t,
      aborted := abortList s,
      current := none,
      streamingContent := "",
      isLoading := false,
      messages := st.messages,
      error := st.error }
  | .send content _pageContext now rand =>
    if jsTrim content = "" then s
    else
      let tok := s.nextTok
      let userMsg : ChatMessage :=
        { id := generateId now rand, role := .user, content := jsTrim content,
          createdAt := now }
      let currentMessages := s.messages ++ [userMsg]
      let req : PendingReq :=
        { kind := .send, tok := tok, tabAtCall := s.tabId,
          capturedMessages := s.messages, capturedError := s.error,
          fullContent := "", done := false }
      { s with
        aborted := abortList s,
        current := some tok,
        nextTok := tok + 1,
        messages := currentMessages,
        tabStates := saveTabState s.tabId s.tabStates currentMessages s.error,
        isLoading := true,
        error := none,
        streamingContent := "",
        reqs := s.reqs ++ [req] }
  | .summarize _pageContent now rand =>
    let tok := s.nextTok
    let userMsg : ChatMessage :=
      { id := generateId now rand, role := .user,
        content := "请总结这个页面的内容", createdAt := now }
    let req : PendingReq :=
      { kind := .summarize, tok := tok, tabAtCall := s.tabId,
        capturedMessages := s.messages, capturedError := s.error,
        fullContent := "", done := false }
    { s with
      aborted := abortList s,
      current := some tok,
      nextTok := tok + 1,
      isLoading := true,
      error := none,
      streamingContent := "",
      messages := [userMsg],
      tabStates := saveTabState s.tabId s.tabStates [userMsg] s.error,
      reqs := s.reqs ++ [req] }
  | .clear =>
    { s with
      aborted := abortList s,
      current := none,
      messages := [],
      error := none,
      streamingContent := "",
      isLoading := false,
      tabStates := saveTabState s.tabId s.tabStates [] none }
  | .chunk i c =>
    match s.reqs[i]? with
    | none => s
    | some r =>
      if r.done then s
      else if currentAborted s then s
      else
        let newFull := r.fullContent ++ c
        { s with
          reqs := s.reqs.set i { r with fullContent := newFull },
          streamingContent := newFull }
  | .resolve i respContent now rand =>
    match s.reqs[i]? with
    | none => s
    | some r =>
      if r.done then s
      else if currentAborted s then
        { s with reqs := s.reqs.set i { r with done := true }, isLoading := false }
      else
        let asst : ChatMessage :=
          { id := generateId now rand, role := .assistant,
            content := if respContent = "" then r.fullContent else respContent,
            createdAt := now }
        let newMessages := s.messages ++ [asst]
        { s with
          messages := newMessages,
          tabStates := saveTabState r.tabAtCall s.tabStates newMessages r.capturedError,
          streamingContent := "",
          isLoading := false,
          reqs := s.reqs.set i { r with done := true } }
  | .reject i e =>
    match s.reqs[i]? with
    | none => s
    | some r =>
      if r.done then s
      else if isAbortError e then
        { s with reqs := s.reqs.set i { r with done := true }, isLoading := false }
      else
        let msg := rejectMessage e r.kind
        { s with
          error := some msg,
          tabStates := saveTabState r.tabAtCall s.tabStates
            (match r.kind with | .send => r.capturedMessages | .summarize => []) (some msg),
          isLoading := false,
          reqs := s.reqs.set i { r with done := true } }

/-- A session reached by a serialised event trace. -/
def run (evs : List Event) : Session := evs.foldl step initSession

/-! ### `parseContent` (Markdown.tsx lines 61-79)

The component first tries the closed pattern
`/<think>([\s\S]*?)<\/think>/` (a regex engine scans start positions left
to right; at an occurrence of the open tag the lazy group stops at the
first close tag after it), then the streaming pattern
`/<think>([\s\S]*)$/`, else returns the content untouched. -/

/-- `pat` occurs at the head of `s`. -/
def leadsWith : List Char → List Char → Bool
  | [], _ => true
  | _ :: _, [] => false
  | p :: ps, c :: cs => p == c && leadsWith ps cs

/-- Index of the first occurrence of `pat` in `s`. -/
def findIdx (pat : List Char) : List Char → Option Nat
  | [] => if leadsWith pat [] then some 0 else none
  | c :: rest =>
    if leadsWith pat (c :: rest) then some 0
    else (findIdx pat rest).map (· + 1)

def openTag : List Char := ['<', 't', 'h', 'i', 'n', 'k', '>']

def closeTag : List Char := ['<', '/', 't', 'h', 'i', 'n', 'k', '>']

/-- The regex engine for `/<think>[\s\S]*?<\/think>/` on the suffix of the
content starting at absolute index `i`: the first start position where the
open tag occurs and some close tag occurs at least 7 characters later,
paired with the position of the first such close tag. -/
def findClosed : List Char → Nat → Option (Nat × Nat)
  | [], _ => none
  | c :: rest, i =>
    if leadsWith openTag (c :: rest) then
      match findIdx closeTag ((c :: rest).drop 7) with
      | some d => some (i, i + 7 + d)
      | none => findClosed rest (i + 1)
    else findClosed rest (i + 1)

/-- The result record `{ thinking, mainContent, isThinkingStreaming }`. -/
structure ParsedContent where
  thinking : Option String
  mainContent : String
  isThinkingStreaming : Bool
deriving DecidableEq

/-- `parseContent`: extract a closed thinking block (group trimmed, first
match removed and the rest trimmed), else an unclosed streaming block
(everything after the open tag trimmed, main content empty), else the
content unchanged. -/
def parseContent (content : String) : ParsedContent :=
  let cs := content.data
  match findClosed cs 0 with
  | some (i, j) =>
    { thinking := some (jsTrim ⟨(cs.drop (i + 7)).take (j - (i + 7))⟩),
      mainContent := jsTrim ⟨cs.take i ++ cs.drop (j + 8)⟩,
      isThinkingStreaming := false }
  | none =>
    match findIdx openTag cs with
    | some i =>
      { thinking := some (jsTrim ⟨cs.drop (i + 7)⟩),
        mainContent := "",
        isThinkingStreaming := true }
    | none =>
      { thinking := none, mainContent := content, isThinkingStreaming := false }

/-! ### Helper lemmas: the tab map -/

lemma mapGet_mapSet_ne (m : TabMap) (k u : Nat) (v : TabChatState) (h : k ≠ u) :
    mapGet (mapSet m k v) u = mapGet m u := by
  induction m with
  | nil => simp [mapGet, mapSet, h]
  | cons p rest ih =>
    obtain ⟨k₀, v₀⟩ := p
    by_cases hk : k₀ = k
    · subst hk
      simp [mapGet, mapSet, h]
    · simp [mapGet, mapSet, hk]
      split <;> simp [ih]

lemma mapGet_mapSet_self (m : TabMap) (k : Nat) (v : TabChatState) :
    mapGet (mapSet m k v) k = some v := by
  induction m with
  | nil => simp [mapGet, mapSet]
  | cons p rest ih =>
    obtain ⟨k₀, v₀⟩ := p
    by_cases hk : k₀ = k
    · subst hk
      simp [mapGet, mapSet]
    · simp [mapGet, mapSet, hk, ih]

lemma saveTabState_none (m : TabMap) (msgs : List ChatMessage) (err : Option String) :
    saveTabState none m msgs err = m := rfl

lemma mapGet_saveTabState_ne (tid : Option Nat) (m : TabMap) (msgs : List ChatMessage)
    (err : Option String) (u : Nat) (h : tid ≠ some u) :
    mapGet (saveTabState tid m msgs err) u = mapGet m u := by
  cases tid with
  | none => rfl
  | some t =>
    have ht : t ≠ u := by
      intro he
      exact h (by rw [he])
    simpa [saveTabState] using mapGet_mapSet_ne m t u ⟨msgs, err⟩ ht

lemma mapGet_saveTabState_self (t : Nat) (m : TabMap) (msgs : List ChatMessage)
    (err : Option String) :
    mapGet (saveTabState (some t) m msgs err) t = some ⟨msgs, err⟩ := by
  simpa [saveTabState] using mapGet_mapSet_self m t ⟨msgs, err⟩

/-! ### Helper lemmas: the cancellation-token invariant -/

/-- Every token ever created, except possibly the controller currently in
the ref, has been aborted, and the ref holds a live created token. -/
def tokensInv (s : Session) : Prop :=
  (∀ t, s.current = some t → t < s.nextTok ∧ t ∉ s.aborted) ∧
  (∀ t, t ∈ s.aborted → t < s.nextTok) ∧
  (∀ t, t < s.nextTok → t ∉ s.aborted → s.current = some t)

lemma mem_abortList {s : Session} {t : Nat} (h : t ∈ abortList s) :
    s.current = some t ∨ t ∈ s.aborted := by
  unfold abortList at h
  cases hc : s.current with
  | none => simp [hc] at h; exact Or.inr h
  | some c =>
    simp [hc] at h
    rcases h with h | h
    · subst h
      exact Or.inl rfl
    · exact Or.inr h

lemma abortList_lt {s : Session} (h : tokensInv s) {t : Nat} (ht : t ∈ abortList s) :
    t < s.nextTok := by
  rcases mem_abortList ht with hc | ha
  · exact (h.1 t hc).1
  · exact h.2.1 t ha

lemma current_mem_abortList {s : Session} {t : Nat} (hc : s.current = some t) :
    t ∈ abortList s := by
  unfold abortList
  rw [hc]
  exact List.mem_cons_self t s.aborted

lemma aborted_mem_abortList {s : Session} {t : Nat} (h : t ∈ s.aborted) :
    t ∈ abortList s := by
  unfold abortList
  cases hc : s.current with
  | none => exact h
  | some c => exact List.mem_cons_of_mem c h

lemma not_mem_abortList_of_inv {s : Session} (h : tokensInv s) {t : Nat}
    (hlt : t < s.nextTok) (hna : t ∉ abortList s) : False := by
  have hnab : t ∉ s.aborted := fun hmem => hna (aborted_mem_abortList hmem)
  have hcur := h.2.2 t hlt hnab
  exact hna (current_mem_abortList hcur)

lemma tokensInv_init : tokensInv initSession := by
  refine ⟨?_, ?_, ?_⟩ <;> intro t <;> simp [initSession]

lemma tokensInv_start {s : Session} (h : tokensInv s) :
    tokensInv { s with
      aborted := abortList s, current := some s.nextTok, nextTok := s.nextTok + 1 } := by
  obtain ⟨h1, h2, h3⟩ := h
  refine ⟨?_, ?_, ?_⟩ <;> intro t <;> dsimp only
  · intro ht
    rw [Option.some_inj] at ht
    subst ht
    constructor
    · omega
    · intro hmem
      exact absurd (abortList_lt ⟨h1, h2, h3⟩ hmem) (by omega)
  · intro ht
    have := abortList_lt ⟨h1, h2, h3⟩ ht
    omega
  · intro hlt hnab
    by_cases heq : t = s.nextTok
    · rw [heq]
    · have hlt' : t < s.nextTok := by omega
      exact (not_mem_abortList_of_inv ⟨h1, h2, h3⟩ hlt' hnab).elim

lemma tokensInv_stop {s : Session} (h : tokensInv s) :
    tokensInv { s with aborted := abortList s, current := none } := by
  obtain ⟨h1, h2, h3⟩ := h
  refine ⟨?_, ?_, ?_⟩ <;> intro t <;> dsimp only
  · intro ht
    exact (Option.noConfusion ht)
  · intro ht
    exact abortList_lt ⟨h1, h2, h3⟩ ht
  · intro hlt hnab
    exact (not_mem_abortList_of_inv ⟨h1, h2, h3⟩ hlt hnab).elim

lemma tokensInv_of_eq {s₁ s₂ : Session} (hc : s₁.current = s₂.current)
    (hn : s₁.nextTok = s₂.nextTok) (ha : s₁.aborted = s₂.aborted)
    (h : tokensInv s₁) : tokensInv s₂ := by
  unfold tokensInv at *
  rw [← hc, ← hn, ← ha]
  exact h

lemma tokensInv_step {s : Session} (h : tokensInv s) (e : Event) :
    tokensInv (step s e) := by
  cases e with
  | setTab t => exact tokensInv_of_eq rfl rfl rfl (tokensInv_stop h)
  | send content pc now rand =>
    by_cases hb : jsTrim content = ""
    · simpa [step, hb] using h
    · simp only [step, hb, if_false]
      exact tokensInv_of_eq rfl rfl rfl (tokensInv_start h)
  | summarize page now rand =>
    exact tokensInv_of_eq rfl rfl rfl (tokensInv_start h)
  | clear => exact tokensInv_of_eq rfl rfl rfl (tokensInv_stop h)
  | chunk i c =>
    cases hg : s.reqs[i]? with
    | none => simpa [step, hg] using h
    | some r =>
      by_cases hd : r.done = true
      · simpa [step, hg, hd] using h
      · by_cases hca : currentAborted s = true
        · simpa [step, hg, hd, hca] using h
        · simp only [step, hg, hd, hca, Bool.false_eq_true, if_false]
          exact tokensInv_of_eq rfl rfl rfl h
  | resolve i resp now rand =>
    cases hg : s.reqs[i]? with
    | none => simpa [step, hg] using h
    | some r =>
      by_cases hd : r.done = true
      · simpa [step, hg, hd] using h
      · by_cases hca : currentAborted s = true
        · simp only [step, hg, hd, hca, Bool.false_eq_true, if_false, if_true]
          exact tokensInv_of_eq rfl rfl rfl h
        · simp only [step, hg, hd, hca, Bool.false_eq_true, if_false]
          exact tokensInv_of_eq rfl rfl rfl h
  | reject i e =>
    cases hg : s.reqs[i]? with
    | none => simpa [step, hg] using h
    | some r =>
      by_cases hd : r.done = true
      · simpa [step, hg, hd] using h
      · by_cases hae : isAbortError e = true
        · simp only [step, hg, hd, hae, Bool.false_eq_true, if_false, if_true]
          exact tokensInv_of_eq rfl rfl rfl h
        · simp only [step, hg, hd, hae, Bool.false_eq_true, if_false]
          exact tokensInv_of_eq rfl rfl rfl h

lemma tokensInv_foldl (evs : List Event) :
    ∀ s, tokensInv s → tokensInv (evs.foldl step s) := by
  induction evs with
  | nil => exact fun s h => h
  | cons e rest ih => exact fun s h => ih _ (tokensInv_step h e)

lemma tokensInv_run (evs : List Event) : tokensInv (run evs) :=
  tokensInv_foldl evs initSession tokensInv_init

/-- The operations whose synchronous prefix aborts the previous
controller: the tab effect, `clearMessages`, `summarizePage`, and
`sendMessage` with non-blank input. -/
def abortsPrevToken : Event → Bool
  | .setTab _ => true
  | .clear => true
  | .send c _ _ _ => !(jsTrim c == "")
  | .summarize _ _ _ => true
  | _ => false

/-- C2 (single cancellation token): in every reachable session state there
is at most one created, non-aborted cancellation token, and every
operation that starts a request, switches the bound tab, or clears the
conversation aborts the token currently held in the ref. -/
theorem C2_single_token (evs : List Event) :
    (∀ t₁ t₂, t₁ < (run evs).nextTok → t₂ < (run evs).nextTok →
      t₁ ∉ (run evs).aborted → t₂ ∉ (run evs).aborted → t₁ = t₂) ∧
    (∀ t e, (run evs).current = some t → abortsPrevToken e = true →
      t ∈ (step (run evs) e).aborted) := by
  have hinv := tokensInv_run evs
  constructor
  · intro t₁ t₂ h₁ h₂ hn₁ hn₂
    have e₁ := hinv.2.2 t₁ h₁ hn₁
    have e₂ := hinv.2.2 t₂ h₂ hn₂
    rw [e₁] at e₂
    exact Option.some_inj.mp e₂
  · intro t e hc hab
    have hmem : t ∈ abortList (run evs) := current_mem_abortList hc
    cases e with
    | setTab u => simpa [step] using hmem
    | clear => simpa [step] using hmem
    | summarize page now rand => simpa [step] using hmem
    | send content pc now rand =>
      have hb : ¬ jsTrim content = "" := by
        simpa [abortsPrevToken] using hab
      simpa [step, hb] using hmem
    | chunk i c => simp [abortsPrevToken] at hab
    | resolve i resp now rand => simp [abortsPrevToken] at hab
    | reject i e => simp [abortsPrevToken] at hab

/-- Witness for C2 at a concrete reachable state. -/
theorem C2_single_token_witness :
    (0 : Nat) = 0 ∧
      (0 : Nat) ∈ (step (run [Event.setTab (some 1), Event.send "A" none 10 "r1"])
        Event.clear).aborted :=
  ⟨(C2_single_token [Event.setTab (some 1), Event.send "A" none 10 "r1"]).1 0 0
      (by decide) (by decide) (by decide) (by decide),
   (C2_single_token [Event.setTab (some 1), Event.send "A" none 10 "r1"]).2 0
      Event.clear (by decide) (by decide)⟩

/-! ### C1: per-tab isolation -/

/-- The tab id under whose binding an event writes the global map:
synchronous operations use the current binding, a settling request uses
the binding captured by its `saveTabState` closure when it was invoked,
and the tab effect and chunk callbacks never write the map. -/
def eventWriteTab (s : Session) (e : Event) : Option Nat :=
  match e with
  | .setTab _ => none
  | .chunk _ _ => none
  | .send _ _ _ _ => s.tabId
  | .summarize _ _ _ => s.tabId
  | .clear => s.tabId
  | .resolve i _ _ _ =>
    match s.reqs[i]? with
    | some r => r.tabAtCall
    | none => none
  | .reject i _ =>
    match s.reqs[i]? with
    | some r => r.tabAtCall
    | none => none

/-- C1 (per-tab conversation isolation): an operation performed under tab
binding `t` leaves the stored record of every tab `u ≠ t` unchanged, and
an operation performed under a null binding leaves the whole map
unchanged. -/
theorem C1_per_tab_isolation (s : Session) (e : Event) :
    (∀ u : Nat, eventWriteTab s e ≠ some u →
      mapGet (step s e).tabStates u = mapGet s.tabStates u) ∧
    (eventWriteTab s e = none → (step s e).tabStates = s.tabStates) := by
  cases e with
  | setTab t => exact ⟨fun u _ => rfl, fun _ => rfl⟩
  | clear =>
    constructor
    · intro u hu
      simp only [step]
      exact mapGet_saveTabState_ne s.tabId s.tabStates [] none u
        (by simpa [eventWriteTab] using hu)
    · intro hn
      simp only [eventWriteTab] at hn
      simp only [step, hn, saveTabState_none]
  | send content pc now rand =>
    by_cases hb : jsTrim content = ""
    · simp [step, hb]
    · constructor
      · intro u hu
        simp only [step, hb, if_false]
        exact mapGet_saveTabState_ne s.tabId s.tabStates _ s.error u
          (by simpa [eventWriteTab] using hu)
      · intro hn
        simp only [eventWriteTab] at hn
        simp only [step, hb, if_false, hn, saveTabState_none]
  | summarize page now rand =>
    constructor
    · intro u hu
      simp only [step]
      exact mapGet_saveTabState_ne s.tabId s.tabStates _ s.error u
        (by simpa [eventWriteTab] using hu)
    · intro hn
      simp only [eventWriteTab] at hn
      simp only [step, hn, saveTabState_none]
  | chunk i c =>
    constructor <;> intro _
    all_goals {
      cases hg : s.reqs[i]? with
      | none => simp [step, hg]
      | some r =>
        by_cases hd : r.done = true
        · simp [step, hg, hd]
        · by_cases hca : currentAborted s = true
          · simp [step, hg, hd, hca]
          · simp [step, hg, hd, hca]
    }
  | resolve i resp now rand =>
    constructor
    · intro u hu
      cases hg : s.reqs[i]? with
      | none => simp [step, hg]
      | some r =>
        by_cases hd : r.done = true
        · simp [step, hg, hd]
        · by_cases hca : currentAborted s = true
          · simp [step, hg, hd, hca]
          · simp only [step, hg, hd, hca, Bool.false_eq_true, if_false]
            exact mapGet_saveTabState_ne r.tabAtCall s.tabStates _ r.capturedError u
              (by simpa [eventWriteTab, hg] using hu)
    · intro hn
      cases hg : s.reqs[i]? with
      | none => simp [step, hg]
      | some r =>
        simp only [eventWriteTab, hg] at hn
        by_cases hd : r.done = true
        · simp [step, hg, hd]
        · by_cases hca : currentAborted s = true
          · simp [step, hg, hd, hca]
          · simp only [step, hg, hd, hca, Bool.false_eq_true, if_false, hn,
              saveTabState_none]
  | reject i e =>
    constructor
    · intro u hu
      cases hg : s.reqs[i]? with
      | none => simp [step, hg]
      | some r =>
        by_cases hd : r.done = true
        · simp [step, hg, hd]
        · by_cases hae : isAbortError e = true
          · simp [step, hg, hd, hae]
          · simp only [step, hg, hd, hae, Bool.false_eq_true, if_false]
            exact mapGet_saveTabState_ne r.tabAtCall s.tabStates _ _ u
              (by simpa [eventWriteTab, hg] using hu)
    · intro hn
      cases hg : s.reqs[i]? with
      | none => simp [step, hg]
      | some r =>
        simp only [eventWriteTab, hg] at hn
        by_cases hd : r.done = true
        · simp [step, hg, hd]
        · by_cases hae : isAbortError e = true
          · simp [step, hg, hd, hae]
          · simp only [step, hg, hd, hae, Bool.false_eq_true, if_false, hn,
              saveTabState_none]

/-- Witness for C1: a `sendMessage` under tab 1 leaves tab 2's record
unchanged, and a `clearMessages` under a null binding leaves the map
unchanged. -/
theorem C1_per_tab_isolation_witness :
    (mapGet (step (run [Event.setTab (some 1)])
        (Event.send "hi" none 3 "r")).tabStates 2 =
      mapGet (run [Event.setTab (some 1)]).tabStates 2) ∧
    (step initSession Event.clear).tabStates = initSession.tabStates :=
  ⟨(C1_per_tab_isolation (run [Event.setTab (some 1)])
      (Event.send "hi" none 3 "r")).1 2 (by decide),
   (C1_per_tab_isolation initSession Event.clear).2 (by decide)⟩

/-! ### C8: tab multiplexing -/

/-- C8 (tab multiplexing): when the bound tab id changes, streaming
content resets to the empty string, loading resets to false, and the
displayed messages and error become exactly the record the global map
stores for the new tab — or the empty record when the new tab has no
stored record or is null. -/
theorem C8_tab_multiplexing (s : Session) (t : Option Nat) :
    (step s (.setTab t)).streamingContent = "" ∧
    (step s (.setTab t)).isLoading = false ∧
    (∀ n st, t = some n → mapGet s.tabStates n = some st →
      (step s (.setTab t)).messages = st.messages ∧
      (step s (.setTab t)).error = st.error) ∧
    (∀ n, t = some n → mapGet s.tabStates n = none →
      (step s (.setTab t)).messages = [] ∧ (step s (.setTab t)).error = none) ∧
    (t = none → (step s (.setTab t)).messages = [] ∧ (step s (.setTab t)).error = none) := by
  refine ⟨rfl, rfl, ?_, ?_, ?_⟩
  · intro n st ht hm
    subst ht
    simp [step, getTabState, hm]
  · intro n ht hm
    subst ht
    simp [step, getTabState, hm]
  · intro ht
    subst ht
    simp [step, getTabState]

/-- Witness for C8: switching to a tab with a stored record restores it,
and switching to an unknown tab yields the empty record. -/
theorem C8_tab_multiplexing_witness :
    ((step (run [Event.setTab (some 1), Event.send "hi" none 3 "r"])
        (.setTab (some 1))).messages =
      (TabChatState.mk (run [Event.setTab (some 1), Event.send "hi" none 3 "r"]).messages
        none).messages) ∧
    ((step initSession (.setTab (some 9))).messages = [] ∧
      (step initSession (.setTab (some 9))).error = none) :=
  ⟨((C8_tab_multiplexing (run [Event.setTab (some 1), Event.send "hi" none 3 "r"])
      (some 1)).2.2.1 1 ⟨(run [Event.setTab (some 1), Event.send "hi" none 3 "r"]).messages,
        none⟩ rfl (by decide)).1,
   (C8_tab_multiplexing initSession (some 9)).2.2.2.1 9 rfl (by decide)⟩

/-! ### C9: blank-input no-op -/

lemma jsTrim_eq_empty_of_ws (s : String) (h : ∀ c ∈ s.data, isJsWs c = true) :
    jsTrim s = "" := by
  unfold jsTrim
  have h1 : s.data.dropWhile isJsWs = [] := List.dropWhile_eq_nil_iff.mpr h
  rw [h1]
  rfl

/-- C9 (blank-input no-op): `sendMessage` with an empty or all-whitespace
input returns before doing anything: the whole session state — messages,
error, loading, streaming content, the global map, the controller ref and
the pending-request list — is unchanged. -/
theorem C9_blank_send_noop (s : Session) (content : String) (pc : Option String)
    (now : Nat) (rand : String) (h : ∀ c ∈ content.data, isJsWs c = true) :
    step s (.send content pc now rand) = s := by
  have hb := jsTrim_eq_empty_of_ws content h
  simp [step, hb]

/-- Witness for C9 on a concrete whitespace-only input. -/
theorem C9_blank_send_noop_witness :
    step (run [Event.setTab (some 1)]) (.send "  \t\n" none 7 "zz") =
      run [Event.setTab (some 1)] :=
  C9_blank_send_noop (run [Event.setTab (some 1)]) "  \t\n" none 7 "zz" (by decide)

/-! ### C5: error surfacing -/

/-- C5 (error surfacing): a pending request whose promise rejects with a
non-abort value sets the hook error to the value's `message` when it is an
`Error` and to the fixed localized fallback otherwise, and turns loading
off; a rejection named `AbortError` is ignored — the error state, the
messages and the global map are left as they were. -/
theorem C5_error_surfacing (s : Session) (i : Nat) (r : PendingReq) (e : RejectVal)
    (hr : s.reqs[i]? = some r) (hd : r.done = false) :
    (isAbortError e = false →
      (step s (.reject i e)).error = some (rejectMessage e r.kind) ∧
      (step s (.reject i e)).isLoading = false) ∧
    (isAbortError e = true →
      (step s (.reject i e)).error = s.error ∧
      (step s (.reject i e)).messages = s.messages ∧
      (step s (.reject i e)).tabStates = s.tabStates) := by
  constructor
  · intro hae
    simp [step, hr, hd, hae]
  · intro hae
    simp [step, hr, hd, hae]

/-- Witness for C5: a concrete network failure surfaces its message with
loading off, and a concrete `AbortError` leaves the error state null. -/
theorem C5_error_surfacing_witness :
    ((step (run [Event.setTab (some 1), Event.send "hi" none 3 "r"])
        (.reject 0 (RejectVal.jsError "TypeError" "net down"))).error =
        some (rejectMessage (RejectVal.jsError "TypeError" "net down") ReqKind.send) ∧
      (step (run [Event.setTab (some 1), Event.send "hi" none 3 "r"])
        (.reject 0 (RejectVal.jsError "TypeError" "net down"))).isLoading = false) ∧
    (step (run [Event.setTab (some 1), Event.send "hi" none 3 "r"])
        (.reject 0 (RejectVal.jsError "AbortError" "x"))).error =
      (run [Event.setTab (some 1), Event.send "hi" none 3 "r"]).error :=
  ⟨(C5_error_surfacing (run [Event.setTab (some 1), Event.send "hi" none 3 "r"]) 0
      ⟨.send, 0, some 1,
        [], none, "", false⟩
      (RejectVal.jsError "TypeError" "net down") (by decide) (by decide)).1 (by decide),
   ((C5_error_surfacing (run [Event.setTab (some 1), Event.send "hi" none 3 "r"]) 0
      ⟨.send, 0, some 1,
        [], none, "", false⟩
      (RejectVal.jsError "AbortError" "x") (by decide) (by decide)).2 (by decide)).1⟩

/-! ### C6: error atomicity — corrected

The `catch` of `sendMessage` runs `saveTabState(messages, message)` with
the closure-captured `messages`, the list from *before* the user message
of this request was appended, and the `catch` of `summarizePage` runs
`saveTabState([], message)`; the displayed list still contains the user
message, so the stored list after a failure differs from the list
displayed immediately before the failure. -/

/-- Counterexample to C6: send "hi" on tab 1 and let the provider reject.
Immediately before the failure the displayed list holds the user message,
but after the failure tab 1's stored record holds the empty list. -/
theorem C6_counterexample :
    (run [Event.setTab (some 1), Event.send "hi" none 100 "abcdefg",
        Event.reject 0 (RejectVal.jsError "Error" "boom")]).error = some "boom" ∧
    (mapGet (run [Event.setTab (some 1), Event.send "hi" none 100 "abcdefg",
        Event.reject 0 (RejectVal.jsError "Error" "boom")]).tabStates 1).map
        TabChatState.messages ≠
      some (run [Event.setTab (some 1), Event.send "hi" none 100 "abcdefg"]).messages := by
  decide

/-- C6 amended: a failed (non-aborted) request surfaces the error string
and leaves the displayed messages and the streaming content unchanged,
but the record it stores for the tab it was started on pairs the error
with the message list captured when the request began — for `sendMessage`
the list *without* the user message this request appended, for
`summarizePage` the empty list — which may differ from the displayed
list. -/
theorem C6_error_save_captured (s : Session) (i : Nat) (r : PendingReq) (e : RejectVal)
    (hr : s.reqs[i]? = some r) (hd : r.done = false) (hae : isAbortError e = false) :
    (step s (.reject i e)).error = some (rejectMessage e r.kind) ∧
    (step s (.reject i e)).messages = s.messages ∧
    (step s (.reject i e)).streamingContent = s.streamingContent ∧
    (∀ t, r.tabAtCall = some t →
      mapGet (step s (.reject i e)).tabStates t =
        some ⟨match r.kind with | .send => r.capturedMessages | .summarize => [],
          some (rejectMessage e r.kind)⟩) := by
  refine ⟨by simp [step, hr, hd, hae], by simp [step, hr, hd, hae],
    by simp [step, hr, hd, hae], ?_⟩
  intro t ht
  simp only [step, hr, hd, hae, Bool.false_eq_true, if_false]
  rw [ht]
  exact mapGet_saveTabState_self t s.tabStates _ _

/-- Witness for the amended C6: after the concrete failure of
`C6_counterexample`, tab 1 stores the pre-request (empty) list with the
error, while the user message is still displayed. -/
theorem C6_error_save_captured_witness :
    (step (run [Event.setTab (some 1), Event.send "hi" none 100 "abcdefg"])
        (.reject 0 (RejectVal.jsError "Error" "boom"))).messages =
      (run [Event.setTab (some 1), Event.send "hi" none 100 "abcdefg"]).messages ∧
    mapGet (step (run [Event.setTab (some 1), Event.send "hi" none 100 "abcdefg"])
        (.reject 0 (RejectVal.jsError "Error" "boom"))).tabStates 1 =
      some ⟨[], some "boom"⟩ :=
  ⟨(C6_error_save_captured (run [Event.setTab (some 1), Event.send "hi" none 100 "abcdefg"])
      0 ⟨.send, 0, some 1, [], none, "", false⟩
      (RejectVal.jsError "Error" "boom") (by decide) (by decide) (by decide)).2.1,
   (C6_error_save_captured (run [Event.setTab (some 1), Event.send "hi" none 100 "abcdefg"])
      0 ⟨.send, 0, some 1, [], none, "", false⟩
      (RejectVal.jsError "Error" "boom") (by decide) (by decide) (by decide)).2.2.2 1 rfl⟩

/-! ### C3 / C4: the abandoned-request guard is ineffective (code bugs)

Every tested guard reads `abortControllerRef.current?.signal.aborted`, but
each `abort()` in the hook is immediately followed by setting the ref to
`null` (tab effect, `clearMessages`) or to a fresh controller
(`sendMessage`, `summarizePage`), and the abort signal is never passed to
`aiService`; so a late chunk or completion of an aborted request always
passes the guard. -/

/-- C3 failing input evaluated: start a request on tab 1, abort it via
`clearMessages` (which nulls the ref), then deliver a late chunk.  The
request's controller (token 0) is aborted, yet the chunk is accumulated
into `fullContent` and published as streaming content instead of being
discarded. -/
theorem C3_late_chunk_applied :
    (0 : Nat) ∈ (run [Event.setTab (some 1), Event.send "A" none 10 "r1",
        Event.clear, Event.chunk 0 "late"]).aborted ∧
    ((run [Event.setTab (some 1), Event.send "A" none 10 "r1",
        Event.clear, Event.chunk 0 "late"]).reqs[0]?).map PendingReq.tok = some 0 ∧
    (run [Event.setTab (some 1), Event.send "A" none 10 "r1",
        Event.clear]).streamingContent = "" ∧
    ((run [Event.setTab (some 1), Event.send "A" none 10 "r1",
        Event.clear, Event.chunk 0 "late"]).reqs[0]?).map PendingReq.fullContent =
      some "late" ∧
    (run [Event.setTab (some 1), Event.send "A" none 10 "r1",
        Event.clear, Event.chunk 0 "late"]).streamingContent = "late" := by
  decide

/-- C4 failing input evaluated: request 0 ("A") is aborted when request 1
("B") starts, yet when request 0's promise resolves first its guard reads
request 1's fresh controller and passes, so the abandoned request's
assistant message "respA" is appended to the conversation. -/
theorem C4_aborted_request_result_applied :
    (0 : Nat) ∈ (run [Event.setTab (some 1), Event.send "A" none 10 "r1",
        Event.send "B" none 11 "r2", Event.resolve 0 "respA" 12 "r3"]).aborted ∧
    ((run [Event.setTab (some 1), Event.send "A" none 10 "r1",
        Event.send "B" none 11 "r2", Event.resolve 0 "respA" 12 "r3"]).reqs[0]?).map
        PendingReq.tok = some 0 ∧
    (run [Event.setTab (some 1), Event.send "A" none 10 "r1",
        Event.send "B" none 11 "r2", Event.resolve 0 "respA" 12 "r3"]).messages.map
        ChatMessage.content = ["A", "B", "respA"] := by
  decide

/-! ### C7: id uniqueness — corrected

`generateId` concatenates the millisecond timestamp and a random base-36
suffix; two creation events in the same millisecond that draw the same
suffix produce the same id, so uniqueness is only probabilistic.  What
does hold: the id determines the `(timestamp, suffix)` pair, since the
decimal part contains no dash and the base-36 suffix contains no dash. -/

lemma digitChar_toNat {d : Nat} (hd : d < 10) : (digitChar d).toNat = 48 + d := by
  interval_cases d <;> decide

lemma digitChar_ne_dash {d : Nat} (hd : d < 10) : digitChar d ≠ '-' := by
  interval_cases d <;> decide

/-- Decimal decoding, inverse to `natDecCharsAux` on digit strings. -/
def decodeDec (l : List Char) : Nat :=
  l.foldl (fun acc c => acc * 10 + (c.toNat - 48)) 0

lemma decodeDec_append_digit (l : List Char) (c : Char) :
    decodeDec (l ++ [c]) = decodeDec l * 10 + (c.toNat - 48) := by
  unfold decodeDec
  rw [List.foldl_append]
  rfl

lemma decodeDec_natDecCharsAux :
    ∀ fuel n, n < fuel → decodeDec (natDecCharsAux fuel n) = n := by
  intro fuel
  induction fuel with
  | zero => intro n hn; omega
  | succ fuel ih =>
    intro n hn
    by_cases h10 : n < 10
    · simp only [natDecCharsAux, h10, if_true]
      unfold decodeDec
      simp [List.foldl, digitChar_toNat h10]
    · simp only [natDecCharsAux, h10, if_false]
      rw [decodeDec_append_digit]
      have hdiv : n / 10 < fuel := by omega
      rw [ih (n / 10) hdiv, digitChar_toNat (Nat.mod_lt n (by omega))]
      omega

lemma natDecChars_inj {n₁ n₂ : Nat} (h : natDecChars n₁ = natDecChars n₂) :
    n₁ = n₂ := by
  have h₁ := decodeDec_natDecCharsAux (n₁ + 1) n₁ (by omega)
  have h₂ := decodeDec_natDecCharsAux (n₂ + 1) n₂ (by omega)
  unfold natDecChars at h
  rw [h] at h₁
  rw [h₂] at h₁
  exact h₁.symm

lemma dash_not_mem_natDecCharsAux : ∀ fuel n, '-' ∉ natDecCharsAux fuel n := by
  intro fuel
  induction fuel with
  | zero => intro n h; simp [natDecCharsAux] at h
  | succ fuel ih =>
    intro n h
    by_cases h10 : n < 10
    · simp only [natDecCharsAux, h10, if_true, List.mem_singleton] at h
      exact digitChar_ne_dash h10 h.symm
    · simp only [natDecCharsAux, h10, if_false, List.mem_append,
        List.mem_singleton] at h
      rcases h with h | h
      · exact ih (n / 10) h
      · exact digitChar_ne_dash (Nat.mod_lt n (by omega)) h.symm

lemma splitAtDash :
    ∀ (a₁ : List Char) (b₁ : List Char) (a₂ : List Char) (b₂ : List Char),
      '-' ∉ a₁ → '-' ∉ a₂ → a₁ ++ '-' :: b₁ = a₂ ++ '-' :: b₂ →
      a₁ = a₂ ∧ b₁ = b₂ := by
  intro a₁
  induction a₁ with
  | nil =>
    intro b₁ a₂ b₂ _ h₂ he
    cases a₂ with
    | nil =>
      simp only [List.nil_append, List.cons.injEq] at he
      exact ⟨rfl, he.2⟩
    | cons c a₂ =>
      simp only [List.nil_append, List.cons_append, List.cons.injEq] at he
      obtain ⟨hc, -⟩ := he
      subst hc
      exact absurd (List.mem_cons_self _ a₂) h₂
  | cons c a₁ ih =>
    intro b₁ a₂ b₂ h₁ h₂ he
    cases a₂ with
    | nil =>
      simp only [List.cons_append, List.nil_append, List.cons.injEq] at he
      obtain ⟨hc, -⟩ := he
      subst hc
      exact absurd (List.mem_cons_self _ a₁) h₁
    | cons d a₂ =>
      simp only [List.cons_append, List.cons.injEq] at he
      have hm₁ : '-' ∉ a₁ := fun hm => h₁ (List.mem_cons_of_mem c hm)
      have hm₂ : '-' ∉ a₂ := fun hm => h₂ (List.mem_cons_of_mem d hm)
      have := ih b₁ a₂ b₂ hm₁ hm₂ he.2
      exact ⟨by rw [he.1, this.1], this.2⟩

lemma generateId_data (n : Nat) (r : String) :
    (generateId n r).data = natDecChars n ++ '-' :: r.data := by
  obtain ⟨rd⟩ := r
  show (String.mk (natDecChars n) ++ String.mk ['-'] ++ String.mk rd).data = _
  simp [String.append, String.data]

/-- Counterexample to C7: two distinct message-creation events (two
different `sendMessage` calls) in the same millisecond with the same
random suffix store two distinct messages carrying the *same* id. -/
theorem C7_counterexample :
    (run [Event.setTab (some 1), Event.send "A" none 5 "abc",
        Event.send "B" none 5 "abc"]).messages[0]? ≠
      (run [Event.setTab (some 1), Event.send "A" none 5 "abc",
        Event.send "B" none 5 "abc"]).messages[1]? ∧
    ((run [Event.setTab (some 1), Event.send "A" none 5 "abc",
        Event.send "B" none 5 "abc"]).messages[0]?).map ChatMessage.id =
      ((run [Event.setTab (some 1), Event.send "A" none 5 "abc",
        Event.send "B" none 5 "abc"]).messages[1]?).map ChatMessage.id := by
  decide

/-- C7 amended: two generated ids are equal exactly when both the
millisecond timestamps and the random suffixes coincide (the suffix,
produced by `Math.random().toString(36).slice(2, 9)`, never contains a
dash) — so ids are unique only as long as no two creation events draw the
same timestamp-and-suffix pair; uniqueness is probabilistic, not
guaranteed. -/
theorem C7_id_characterization (n₁ n₂ : Nat) (r₁ r₂ : String)
    (h₁ : '-' ∉ r₁.data) (h₂ : '-' ∉ r₂.data) :
    generateId n₁ r₁ = generateId n₂ r₂ ↔ (n₁ = n₂ ∧ r₁ = r₂) := by
  constructor
  · intro he
    have hd : (generateId n₁ r₁).data = (generateId n₂ r₂).data := by rw [he]
    rw [generateId_data, generateId_data] at hd
    have hsplit := splitAtDash (natDecChars n₁) r₁.data (natDecChars n₂) r₂.data
      (dash_not_mem_natDecCharsAux (n₁ + 1) n₁)
      (dash_not_mem_natDecCharsAux (n₂ + 1) n₂) hd
    refine ⟨natDecChars_inj hsplit.1, ?_⟩
    obtain ⟨d₁⟩ := r₁
    obtain ⟨d₂⟩ := r₂
    exact congrArg String.mk hsplit.2
  · rintro ⟨rfl, rfl⟩
    rfl

/-- Witness for the amended C7 at concrete inputs. -/
theorem C7_id_characterization_witness :
    generateId 17 "ab3" = generateId 17 "ab3" ↔ ((17 : Nat) = 17 ∧ "ab3" = "ab3") :=
  C7_id_characterization 17 17 "ab3" "ab3" (by decide) (by decide)

/-! ### C10: `parseContent` — search lemmas -/

lemma leadsWith_append_self : ∀ (p t : List Char), leadsWith p (p ++ t) = true := by
  intro p
  induction p with
  | nil => intro t; rfl
  | cons c cs ih =>
    intro t
    simp [leadsWith, ih]

lemma leadsWith_openTag_drop_ge {s : List Char} {q : Nat} (hq : s.length ≤ q) :
    leadsWith openTag (s.drop q) = false := by
  rw [List.drop_eq_nil_of_le hq]
  rfl

lemma leadsWith_closeTag_drop_ge {s : List Char} {q : Nat} (hq : s.length ≤ q) :
    leadsWith closeTag (s.drop q) = false := by
  rw [List.drop_eq_nil_of_le hq]
  rfl

lemma findIdx_eq_none {c : Char} {cs : List Char} :
    ∀ s : List Char, (∀ q, leadsWith (c :: cs) (s.drop q) = false) →
      findIdx (c :: cs) s = none := by
  intro s
  induction s with
  | nil =>
    intro h
    simp [findIdx, leadsWith]
  | cons d rest ih =>
    intro h
    have h0 := h 0
    rw [List.drop_zero] at h0
    have hr : findIdx (c :: cs) rest = none :=
      ih fun q => by
        have hq := h (q + 1)
        rwa [List.drop_succ_cons] at hq
    simp [findIdx, h0, hr]

lemma findIdx_append (pat : List Char) :
    ∀ a t : List Char,
      (∀ q, q < a.length → leadsWith pat ((a ++ t).drop q) = false) →
      leadsWith pat t = true → findIdx pat (a ++ t) = some a.length := by
  intro a
  induction a with
  | nil =>
    intro t h ht
    cases t with
    | nil => simp [findIdx, ht]
    | cons d rest => simp [findIdx, ht]
  | cons b a ih =>
    intro t h ht
    have h0 := h 0 (by simp)
    rw [List.drop_zero, List.cons_append] at h0
    have hr : findIdx pat (a ++ t) = some a.length :=
      ih t
        (fun q hq => by
          have hq1 := h (q + 1) (by simpa using Nat.succ_lt_succ hq)
          rwa [List.cons_append, List.drop_succ_cons] at hq1)
        ht
    simp [findIdx, h0, hr]

lemma findClosed_skip :
    ∀ (a t : List Char) (i : Nat),
      (∀ q, q < a.length → leadsWith openTag ((a ++ t).drop q) = false) →
      findClosed (a ++ t) i = findClosed t (i + a.length) := by
  intro a
  induction a with
  | nil =>
    intro t i h
    simp
  | cons b a ih =>
    intro t i h
    have h0 := h 0 (by simp)
    rw [List.drop_zero, List.cons_append] at h0
    show findClosed (b :: (a ++ t)) i = _
    simp only [findClosed, h0, Bool.false_eq_true, if_false]
    rw [ih t (i + 1)
      (fun q hq => by
        have hq1 := h (q + 1) (by simpa using Nat.succ_lt_succ hq)
        rwa [List.cons_append, List.drop_succ_cons] at hq1)]
    simp only [List.length_cons]
    congr 1
    omega

lemma findClosed_hit (t : List Char) (i d : Nat)
    (ht : leadsWith openTag t = true)
    (hc : findIdx closeTag (t.drop 7) = some d) :
    findClosed t i = some (i, i + 7 + d) := by
  cases t with
  | nil => simp [openTag, leadsWith] at ht
  | cons b rest =>
    simp only [findClosed, ht, if_true, hc]

lemma findClosed_none :
    ∀ (s : List Char) (i : Nat),
      (∀ q, leadsWith openTag (s.drop q) = true →
        findIdx closeTag (s.drop (q + 7)) = none) →
      findClosed s i = none := by
  intro s
  induction s with
  | nil => intro i h; rfl
  | cons b rest ih =>
    intro i h
    have hshift : ∀ q, leadsWith openTag (rest.drop q) = true →
        findIdx closeTag (rest.drop (q + 7)) = none := by
      intro q hq
      have hq1 := h (q + 1) (by rwa [List.drop_succ_cons])
      rwa [show q + 1 + 7 = (q + 7) + 1 from by omega, List.drop_succ_cons] at hq1
    by_cases hb : leadsWith openTag (b :: rest) = true
    · have h0 := h 0 hb
      rw [Nat.zero_add] at h0
      simp only [findClosed, hb, if_true, h0]
      exact ih (i + 1) hshift
    · simp only [findClosed, hb, Bool.false_eq_true, if_false]
      exact ih (i + 1) hshift

/-- C10 (`parseContent`).  First conjunct: on a string
`pre ++ "<think>" ++ mid ++ "</think>" ++ post` whose first open tag
starts after `pre` and whose first close tag after it starts after `mid`,
the thinking part is `mid` trimmed, the main content is `pre ++ post`
trimmed, and it is not marked streaming.  Second conjunct: on
`pre ++ "<think>" ++ rest` with no close tag in `rest`, the thinking part
is `rest` trimmed, the main content is empty — the text in `pre` is
dropped — and it is marked streaming.  Third conjunct: a string without
any open tag is returned unchanged, untrimmed, with no thinking part. -/
theorem C10_parseContent_spec :
    (∀ pre mid post : List Char,
      (∀ q, q < pre.length →
        leadsWith openTag ((pre ++ openTag ++ mid ++ closeTag ++ post).drop q) = false) →
      (∀ q, q < mid.length →
        leadsWith closeTag ((mid ++ closeTag ++ post).drop q) = false) →
      parseContent ⟨pre ++ openTag ++ mid ++ closeTag ++ post⟩ =
        ⟨some (jsTrim ⟨mid⟩), jsTrim ⟨pre ++ post⟩, false⟩) ∧
    (∀ pre rest : List Char,
      (∀ q, q < pre.length →
        leadsWith openTag ((pre ++ openTag ++ rest).drop q) = false) →
      (∀ q, q < rest.length → leadsWith closeTag (rest.drop q) = false) →
      parseContent ⟨pre ++ openTag ++ rest⟩ = ⟨some (jsTrim ⟨rest⟩), "", true⟩) ∧
    (∀ content : String,
      (∀ q, q < content.data.length →
        leadsWith openTag (content.data.drop q) = false) →
      parseContent content = ⟨none, content, false⟩) := by
  refine ⟨?_, ?_, ?_⟩
  · intro pre mid post hpre hmid
    have hassoc : pre ++ openTag ++ mid ++ closeTag ++ post =
        pre ++ (openTag ++ (mid ++ (closeTag ++ post))) := by
      simp [List.append_assoc]
    rw [hassoc] at hpre ⊢
    rw [List.append_assoc mid closeTag post] at hmid
    have hlopen : openTag.length = 7 := by decide
    have hhit : findClosed (openTag ++ (mid ++ (closeTag ++ post))) pre.length =
        some (pre.length, pre.length + 7 + mid.length) := by
      apply findClosed_hit
      · exact leadsWith_append_self openTag _
      · have hdrop : (openTag ++ (mid ++ (closeTag ++ post))).drop 7 =
            mid ++ (closeTag ++ post) := List.drop_left' hlopen
        rw [hdrop]
        exact findIdx_append closeTag mid (closeTag ++ post) hmid
          (leadsWith_append_self closeTag post)
    have hfc : findClosed (pre ++ (openTag ++ (mid ++ (closeTag ++ post)))) 0 =
        some (pre.length, pre.length + 7 + mid.length) := by
      rw [findClosed_skip pre _ 0 hpre, Nat.zero_add, hhit]
    have e1 : (pre ++ (openTag ++ (mid ++ (closeTag ++ post)))).drop (pre.length + 7) =
        mid ++ (closeTag ++ post) := by
      rw [show pre ++ (openTag ++ (mid ++ (closeTag ++ post))) =
          (pre ++ openTag) ++ (mid ++ (closeTag ++ post)) from by
        simp [List.append_assoc]]
      exact List.drop_left' (by simp [hlopen])
    have e2 : (pre ++ (openTag ++ (mid ++ (closeTag ++ post)))).take pre.length = pre :=
      List.take_left' rfl
    have e3 : (pre ++ (openTag ++ (mid ++ (closeTag ++ post)))).drop
        (pre.length + 7 + mid.length + 8) = post := by
      rw [show pre ++ (openTag ++ (mid ++ (closeTag ++ post))) =
          (((pre ++ openTag) ++ mid) ++ closeTag) ++ post from by
        simp [List.append_assoc]]
      refine List.drop_left' ?_
      have hlclose : closeTag.length = 8 := by decide
      simp [hlopen, hlclose]
      omega
    simp only [parseContent, hfc, e1, e2, e3]
    rw [show pre.length + 7 + mid.length - (pre.length + 7) = mid.length from by omega,
      List.take_left' rfl]
  · intro pre rest hpre hnc
    have hassoc : pre ++ openTag ++ rest = pre ++ (openTag ++ rest) :=
      List.append_assoc pre openTag rest
    rw [hassoc] at hpre ⊢
    have hlopen : openTag.length = 7 := by decide
    have hnc' : ∀ q, leadsWith closeTag (rest.drop q) = false := by
      intro q
      by_cases hq : q < rest.length
      · exact hnc q hq
      · exact leadsWith_closeTag_drop_ge (by omega)
    have hnone : findClosed (pre ++ (openTag ++ rest)) 0 = none := by
      rw [findClosed_skip pre _ 0 hpre]
      apply findClosed_none
      intro q _
      have hdq : (openTag ++ rest).drop (q + 7) = rest.drop q := by
        rw [show q + 7 = openTag.length + q from by rw [hlopen]; omega]
        exact List.drop_append q
      rw [hdq]
      apply findIdx_eq_none
      intro p
      rw [List.drop_drop]
      exact hnc' (q + p)
    have hopen : findIdx openTag (pre ++ (openTag ++ rest)) = some pre.length :=
      findIdx_append openTag pre (openTag ++ rest) hpre
        (leadsWith_append_self openTag rest)
    have e1 : (pre ++ (openTag ++ rest)).drop (pre.length + 7) = rest := by
      rw [show pre ++ (openTag ++ rest) = (pre ++ openTag) ++ rest from by
        simp [List.append_assoc]]
      exact List.drop_left' (by simp [hlopen])
    simp only [parseContent, hnone, hopen, e1]
  · intro content h
    have h' : ∀ q, leadsWith openTag (content.data.drop q) = false := by
      intro q
      by_cases hq : q < content.data.length
      · exact h q hq
      · exact leadsWith_openTag_drop_ge (by omega)
    have hnone : findClosed content.data 0 = none := by
      apply findClosed_none
      intro q hq
      rw [h' q] at hq
      cases hq
    have hfi : findIdx openTag content.data = none := findIdx_eq_none content.data h'
    simp only [parseContent, hnone, hfi]

/-- Witness for C10: a closed block, an unclosed streaming block, and a
tag-free string, each at concrete inputs. -/
theorem C10_parseContent_spec_witness :
    parseContent ⟨['x', ' '] ++ openTag ++ [' ', 'm'] ++ closeTag ++ [' ', 'y']⟩ =
      ⟨some (jsTrim ⟨[' ', 'm']⟩), jsTrim ⟨['x', ' ', ' ', 'y']⟩, false⟩ ∧
    parseContent ⟨['x'] ++ openTag ++ [' ', 't']⟩ =
      ⟨some (jsTrim ⟨[' ', 't']⟩), "", true⟩ ∧
    parseContent "plain" = ⟨none, "plain", false⟩ :=
  ⟨C10_parseContent_spec.1 ['x', ' '] [' ', 'm'] [' ', 'y'] (by decide) (by decide),
   C10_parseContent_spec.2.1 ['x'] [' ', 't'] (by decide) (by decide),
   C10_parseContent_spec.2.2 "plain" (by decide)⟩

end AiSidebar
